import Mathlib

/-!
Shallow embedding of the `opensearchqueryreceiver` Go repository:
the query-execution-and-result-flattening engine (scraper.go, the
OpenSearch client, config validation and the receiver collection loop).

Untyped Go JSON values (`interface{}` obtained from `encoding/json`)
are modelled by the inductive `Json`; Go maps (`map[string]interface{}`,
`map[string]string`) are modelled as association lists, iterated in list
order (Go map iteration order is unspecified; no claim below depends on
the iteration order of distinct keys).  Numeric JSON values (`float64`
in Go) are modelled as exact rationals.  OTel attribute maps
(`pcommon.Map` mutated by `PutStr`, an upsert) are modelled by `putStr`
on association lists.
-/

namespace OSQR

/-- Go `interface{}` values produced by `encoding/json.Unmarshal`. -/
inductive Json where
  | str : String → Json
  | num : ℚ → Json
  | bool : Bool → Json
  | null : Json
  | arr : List Json → Json
  | obj : List (String × Json) → Json

/-- Association-list lookup, modelling Go map indexing `m[k]`. -/
def lookupField : List (String × Json) → String → Option Json
  | [], _ => none
  | (k, v) :: rest, key => if k = key then some v else lookupField rest key

theorem sizeOf_lookupField {fields : List (String × Json)} {key : String}
    {v : Json} (h : lookupField fields key = some v) :
    sizeOf v < sizeOf fields := by
  induction fields with
  | nil => simp [lookupField] at h
  | cons kv rest ih =>
      rw [lookupField] at h
      by_cases hk : kv.1 = key
      · simp [hk] at h
        cases kv with
        | mk k w =>
            simp at h
            subst h
            simp
            omega
      · simp [hk] at h
        have := ih h
        cases kv with
        | mk k w => simp; omega

/-- One OTel attribute-map upsert (`pcommon.Map.PutStr`): replace the
value in place when the key exists, append otherwise. -/
def putStr : List (String × String) → String → String →
    List (String × String)
  | [], k, v => [(k, v)]
  | kv :: rest, k, v =>
      if kv.1 = k then (k, v) :: rest else kv :: putStr rest k v

/-- Attribute-map read (`pcommon.Map.Get` restricted to strings). -/
def getStr : List (String × String) → String → Option String
  | [], _ => none
  | kv :: rest, k => if kv.1 = k then some kv.2 else getStr rest k

/-- A query definition (`QueryConfig` in Go). `query` holds the fields
of the JSON query object. -/
structure QueryConfig where
  name : String
  description : String
  query : List (String × Json)
  metricName : String
  labels : List (String × String)

/-- One emitted gauge data point (`recordGaugeMetric`'s effect on the
scope metrics): metric name, description, unit, double value and the
data point's attributes. -/
structure Measurement where
  name : String
  description : String
  unit : String
  value : ℚ
  labels : List (String × String)
deriving DecidableEq

/-- Attributes written by `recordGaugeMetric`: `query.name`, then
`query.description` when the description is non-empty, then the
config's custom labels. -/
def recordAttrs (qc : QueryConfig) : List (String × String) :=
  let a := putStr [] "query.name" qc.name
  let a := if qc.description ≠ "" then
    putStr a "query.description" qc.description else a
  qc.labels.foldl (fun acc kv => putStr acc kv.1 kv.2) a

/-- `recordGaugeMetric` as a pure value: the measurement it appends. -/
def recordGaugeMetric (name description unit : String) (value : ℚ)
    (qc : QueryConfig) : Measurement :=
  { name := name, description := description, unit := unit,
    value := value, labels := recordAttrs qc }

/-- Attributes written inline for a bucket `doc_count` data point in
`processBuckets`: `query.name`, `bucket.key`, `aggregation`, then the
config's custom labels (no `query.description`). -/
def bucketAttrs (qc : QueryConfig) (key aggName : String) :
    List (String × String) :=
  let a := putStr [] "query.name" qc.name
  let a := putStr a "bucket.key" key
  let a := putStr a "aggregation" aggName
  qc.labels.foldl (fun acc kv => putStr acc kv.1 kv.2) a

/-- Bucket-key resolution in `processBuckets`: a string key verbatim; a
numeric key through Go's `%.0f` (round to integer, halves to even); any
other or missing key synthesizes `bucket_<i>`. -/
def goRoundEven (q : ℚ) : Int :=
  let f := ⌊q⌋
  let frac := q - f
  if frac < 1/2 then f
  else if frac > 1/2 then f + 1
  else if Even f then f else f + 1

/-- The key string computed for the bucket at zero-based index `i`. -/
def resolveBucketKey (bucketFields : List (String × Json)) (i : ℕ) :
    String :=
  match lookupField bucketFields "key" with
  | some (Json.str s) => s
  | some (Json.num q) => toString (goRoundEven q)
  | _ => "bucket_" ++ toString i

mutual

/-- `processAggregation`: flatten one aggregation node.  Emits the
`value` measurement, then the node-level `doc_count` measurement, then
the per-bucket measurements, exactly as the Go function does. -/
def processAggregation (qc : QueryConfig) (baseMetricName aggName : String)
    (aggValue : Json) : List Measurement :=
  match aggValue with
  | Json.obj fields =>
      (match lookupField fields "value" with
       | some (Json.num v) =>
           [recordGaugeMetric (baseMetricName ++ ".agg." ++ aggName)
             ("Aggregation result for " ++ aggName) "" v qc]
       | _ => []) ++
      (match lookupField fields "doc_count" with
       | some (Json.num d) =>
           [recordGaugeMetric
             (baseMetricName ++ ".agg." ++ aggName ++ ".doc_count")
             ("Document count for " ++ aggName) "documents" d qc]
       | _ => []) ++
      (match h : lookupField fields "buckets" with
       | some (Json.arr buckets) =>
           processBuckets qc baseMetricName aggName buckets 0
       | _ => [])
  | _ => []
termination_by sizeOf aggValue
decreasing_by
  simp_wf
  have := sizeOf_lookupField h
  simp at this
  omega

/-- `processBuckets`: flatten a bucket list, `i` the zero-based index of
the first bucket of `buckets` within its sibling list. -/
def processBuckets (qc : QueryConfig) (baseMetricName aggName : String)
    (buckets : List Json) (i : ℕ) : List Measurement :=
  match buckets with
  | [] => []
  | b :: rest =>
      (match b with
       | Json.obj bucketFields =>
           let key := resolveBucketKey bucketFields i
           (match lookupField bucketFields "doc_count" with
            | some (Json.num d) =>
                [{ name := baseMetricName ++ ".agg." ++ aggName ++
                     ".bucket.doc_count",
                   description := "Bucket document count for " ++ aggName,
                   unit := "documents", value := d,
                   labels := bucketAttrs qc key aggName }]
            | _ => []) ++
           processBucketFields qc baseMetricName key bucketFields
       | _ => []) ++
      processBuckets qc baseMetricName aggName rest (i + 1)
termination_by sizeOf buckets
decreasing_by
  all_goals simp_wf
  all_goals omega

/-- The nested-aggregation sweep over a bucket's fields: every field
other than `key`, `doc_count`, `key_as_string` is processed as a nested
aggregation with new base name `<baseMetricName>.<key>`. -/
def processBucketFields (qc : QueryConfig) (baseMetricName key : String)
    (bucketFields : List (String × Json)) : List Measurement :=
  match bucketFields with
  | [] => []
  | (k, v) :: rest =>
      (if k ≠ "key" ∧ k ≠ "doc_count" ∧ k ≠ "key_as_string" then
        processAggregation qc (baseMetricName ++ "." ++ key) k v
      else []) ++
      processBucketFields qc baseMetricName key rest
termination_by sizeOf bucketFields
decreasing_by
  all_goals simp_wf
  all_goals omega

end

/-- `processAggregations`: iterate the response's aggregation map. -/
def processAggregations (qc : QueryConfig) (baseMetricName : String)
    (aggregations : List (String × Json)) : List Measurement :=
  match aggregations with
  | [] => []
  | (aggName, aggValue) :: rest =>
      processAggregation qc baseMetricName aggName aggValue ++
      processAggregations qc baseMetricName rest

/-- Shard statistics of a search response (`ShardInfo` in Go). -/
structure ShardInfo where
  total : ℤ
  successful : ℤ
  skipped : ℤ
  failed : ℤ

/-- The parsed OpenSearch response (`SearchResponse` in Go), restricted
to the fields the flattening reads.  `aggregations` is `none` for a
`nil` Go map. -/
structure SearchResponse where
  took : ℤ
  timedOut : Bool
  shards : ShardInfo
  hitsTotalValue : ℤ
  aggregations : Option (List (String × Json))

/-- Metric-name resolution in `executeAndRecordQuery`: the configured
`metric_name`, or `opensearch.query.<name>` when empty. -/
def resolveMetricName (qc : QueryConfig) : String :=
  if qc.metricName = "" then "opensearch.query." ++ qc.name
  else qc.metricName

/-- `executeAndRecordQuery`, given an already-executed response: the
sequence of measurements recorded for one query (five summary gauges,
then the aggregation walk when aggregations are present and
non-empty). -/
def executeAndRecordQuery (qc : QueryConfig) (resp : SearchResponse) :
    List Measurement :=
  let metricName := resolveMetricName qc
  [recordGaugeMetric (metricName ++ ".count")
      "Number of documents matching the query" "hits"
      (resp.hitsTotalValue : ℚ) qc,
   recordGaugeMetric (metricName ++ ".took_ms")
      "Query execution time in milliseconds" "ms" (resp.took : ℚ) qc,
   recordGaugeMetric (metricName ++ ".shards.total")
      "Total number of shards queried" "shards"
      (resp.shards.total : ℚ) qc,
   recordGaugeMetric (metricName ++ ".shards.successful")
      "Number of successful shards" "shards"
      (resp.shards.successful : ℚ) qc,
   recordGaugeMetric (metricName ++ ".shards.failed")
      "Number of failed shards" "shards" (resp.shards.failed : ℚ) qc] ++
  (match resp.aggregations with
   | some aggs =>
       if aggs.length ≠ 0 then processAggregations qc metricName aggs
       else []
   | none => [])

/-- The per-query loop of `scrape`: each query is executed in
configured order; on failure (`exec` returns `none`) the error is
logged and the loop continues with the next query, recording nothing
for the failed one. -/
def scrapeQueries : List QueryConfig →
    (QueryConfig → Option SearchResponse) → List Measurement
  | [], _ => []
  | qc :: rest, exec =>
      (match exec qc with
       | some resp => executeAndRecordQuery qc resp
       | none => []) ++ scrapeQueries rest exec

/-- `scrape`: run every configured query and return the collected
batch.  The Go function always returns a `nil` error (modelled by the
`Option String` component), even when individual queries failed. -/
def scrape (queries : List QueryConfig)
    (exec : QueryConfig → Option SearchResponse) :
    List Measurement × Option String :=
  (scrapeQueries queries exec, none)

/-- The status check in `ExecuteQuery` (client code): any status other
than `http.StatusOK` (200) is an error whose message carries the
numeric status code and the raw response body. -/
def checkStatusCode (statusCode : ℕ) (body : String) :
    Except String Unit :=
  if statusCode ≠ 200 then
    Except.error ("unexpected status code " ++ toString statusCode ++
      ": " ++ body)
  else Except.ok ()

/-- Zero-padded two-digit rendering of a field of a timestamp. -/
def pad2 (n : ℕ) : String :=
  if n < 10 then "0" ++ toString n else toString n

/-- Zero-padded four-digit rendering of a non-negative year. -/
def pad4Nat (n : ℕ) : String :=
  if n < 10 then "000" ++ toString n
  else if n < 100 then "00" ++ toString n
  else if n < 1000 then "0" ++ toString n
  else toString n

/-- Zero-padded four-digit rendering of a year. -/
def pad4 (y : ℤ) : String :=
  if y < 0 then "-" ++ pad4Nat (-y).toNat else pad4Nat y.toNat

/-- Civil date from days since the Unix epoch (proleptic Gregorian
calendar), the standard era-based conversion used by `time.Time`
formatting. -/
def civilFromDays (z : ℤ) : ℤ × ℕ × ℕ :=
  let z' := z + 719468
  let era := z' / 146097
  let doe := (z' % 146097).toNat
  let yoe := (doe - doe / 1460 + doe / 36524 - doe / 146096) / 365
  let y := (yoe : ℤ) + era * 400
  let doy := doe - (365 * yoe + yoe / 4 - yoe / 100)
  let mp := (5 * doy + 2) / 153
  let d := doy - (153 * mp + 2) / 5 + 1
  let m := if mp < 10 then mp + 3 else mp - 9
  (if m ≤ 2 then y + 1 else y, m, d)

/-- RFC 3339 rendering (UTC, second precision) of a time given as
seconds since the Unix epoch, as produced by Go's
`time.Format(time.RFC3339)` for a UTC time. -/
def rfc3339 (t : ℤ) : String :=
  let days := t / 86400
  let secs := (t % 86400).toNat
  let ymd := civilFromDays days
  pad4 ymd.1 ++ "-" ++ pad2 ymd.2.1 ++ "-" ++ pad2 ymd.2.2 ++ "T" ++
    pad2 (secs / 3600) ++ ":" ++ pad2 (secs % 3600 / 60) ++ ":" ++
    pad2 (secs % 60) ++ "Z"

/-- `addTimeRangeFilter`: wrap an arbitrary query body in a `bool`
query whose `must` holds the original query and whose `filter` holds a
`range` clause on the configured time field, from `now - lookback` to
`now`, both rendered in RFC 3339.  `now` (seconds) and `lookback`
(seconds) are explicit parameters; the Go code samples `time.Now()`
once and subtracts the configured lookback period.  The function
builds fresh maps and leaves the original query value untouched. -/
def addTimeRangeFilter (timeField : String) (lookback now : ℤ)
    (query : Json) : Json :=
  let startTime := now - lookback
  let timeFilter : Json :=
    Json.obj [("range", Json.obj [(timeField, Json.obj
      [("gte", Json.str (rfc3339 startTime)),
       ("lte", Json.str (rfc3339 now))])])]
  Json.obj [("bool", Json.obj
    [("must", Json.arr [query]),
     ("filter", Json.arr [timeFilter])])]

/-- The receiver configuration (`Config` in Go), restricted to the
fields `Validate` reads or writes.  `endpoint` is the embedded HTTP
client setting; `lookbackPeriod` is in nanoseconds (Go
`time.Duration`). -/
structure Config where
  endpoint : String
  mode : String
  proxyEndpoint : String
  queries : List QueryConfig
  indexPattern : String
  timeField : String
  lookbackPeriod : ℤ

/-- The per-query validation loop inside `Config.Validate`. -/
def firstQueryError : List QueryConfig → ℕ → Option String
  | [], _ => none
  | qc :: rest, i =>
      if qc.name = "" then
        some ("query[" ++ toString i ++ "]: name must be specified")
      else if qc.query.length = 0 then
        some ("query[" ++ toString i ++ "] (" ++ qc.name ++
          "): query body must be specified")
      else firstQueryError rest (i + 1)

/-- `Config.Validate` as a state function: the returned error (if any)
together with the final state of the config value.  All validation
checks precede the default-setting writes, so every error branch
returns the config unchanged; the success branch fills in `TimeField`
and `LookbackPeriod` defaults (`@timestamp`, 5 minutes = 3*10^11 ns). -/
def validate (cfg : Config) : Option String × Config :=
  if cfg.mode = "" then
    (some "mode must be specified (direct or proxy)", cfg)
  else if cfg.mode ≠ "direct" ∧ cfg.mode ≠ "proxy" then
    (some ("invalid mode '" ++ cfg.mode ++
      "': must be 'direct' or 'proxy'"), cfg)
  else if cfg.mode = "direct" ∧ cfg.endpoint = "" then
    (some "endpoint must be specified in direct mode", cfg)
  else if cfg.mode = "proxy" ∧ cfg.proxyEndpoint = "" then
    (some "proxy_endpoint must be specified in proxy mode", cfg)
  else if cfg.queries.length = 0 then
    (some "at least one query must be configured", cfg)
  else
    match firstQueryError cfg.queries 0 with
    | some e => (some e, cfg)
    | none =>
        if cfg.indexPattern = "" then
          (some "index_pattern must be specified", cfg)
        else
          (none,
            { cfg with
              timeField :=
                if cfg.timeField = "" then "@timestamp" else cfg.timeField,
              lookbackPeriod :=
                if cfg.lookbackPeriod = 0 then 300000000000
                else cfg.lookbackPeriod })

/-- One observable event inside `collectionLoop`'s select loop: a
ticker tick (running one collection cycle) or the cancellation of the
parent context (returning). -/
inductive LoopEvent where
  | tick : LoopEvent
  | cancel : LoopEvent

/-- Cycles run by the `for`/`select` loop of `collectionLoop` on a
sequence of select outcomes: one cycle per tick until the first
cancellation, nothing afterwards. -/
def loopCycles : List LoopEvent → ℕ
  | [] => 0
  | LoopEvent.tick :: rest => 1 + loopCycles rest
  | LoopEvent.cancel :: _ => 0

/-- `collectionLoop` as a cycle counter: when `initialDelay > 0` the
loop first waits in a select that the cancellation signal can win
(`delayCancelled`), returning before any cycle; otherwise it runs one
immediate cycle (before any ticker tick) and then the tick loop. -/
def collectionLoop (initialDelay : ℤ) (delayCancelled : Bool)
    (events : List LoopEvent) : ℕ :=
  if 0 < initialDelay ∧ delayCancelled then 0
  else 1 + loopCycles events

/-! ### Concrete fixtures used by witnesses and counterexamples -/

/-- A minimal query config: name `q`, no description, no labels. -/
def qc0 : QueryConfig :=
  { name := "q", description := "", query := [("match_all", Json.obj [])],
    metricName := "", labels := [] }

/-- A query config named `bad`, used as the failing query. -/
def qcBad : QueryConfig :=
  { name := "bad", description := "", query := [("match_all", Json.obj [])],
    metricName := "", labels := [] }

/-- A response with no aggregations. -/
def resp0 : SearchResponse :=
  { took := 7, timedOut := false,
    shards := { total := 3, successful := 2, skipped := 0, failed := 1 },
    hitsTotalValue := 42, aggregations := none }

/-- An execution oracle that fails exactly on the query named `bad`. -/
def execOracle (qc : QueryConfig) : Option SearchResponse :=
  if qc.name = "bad" then none else some resp0

/-- The aggregation node of the spec's worked example: aggregation
`levels` with one bucket `{key: "ERROR", doc_count: 10, avg_latency:
{value: 120.5}}`. -/
def nodeLevels : Json :=
  Json.obj [("buckets", Json.arr [Json.obj
    [("key", Json.str "ERROR"), ("doc_count", Json.num 10),
     ("avg_latency", Json.obj [("value", Json.num 120.5)])]])]

/-- An aggregation node carrying both a `doc_count` and a `buckets`
field. -/
def nodeDocAndBuckets : Json :=
  Json.obj [("doc_count", Json.num 5),
    ("buckets", Json.arr
      [Json.obj [("key", Json.str "k"), ("doc_count", Json.num 2)]])]

/-- A query config with a non-empty description and one custom
label. -/
def qcLab : QueryConfig :=
  { name := "q", description := "d",
    query := [("match_all", Json.obj [])], metricName := "",
    labels := [("team", "x")] }

/-- A response whose only aggregation is `levels` with one bucket
`{key: "E", doc_count: 1}`. -/
def respBuckets : SearchResponse :=
  { took := 1, timedOut := false,
    shards := { total := 1, successful := 1, skipped := 0, failed := 0 },
    hitsTotalValue := 3,
    aggregations := some [("levels", Json.obj [("buckets", Json.arr
      [Json.obj [("key", Json.str "E"),
        ("doc_count", Json.num 1)]])])] }

/-- A config whose mode is missing (invalid). -/
def cfgNoMode : Config :=
  { endpoint := "e", mode := "", proxyEndpoint := "", queries := [qc0],
    indexPattern := "logs-*", timeField := "", lookbackPeriod := 0 }

/-- A valid direct-mode config with empty `TimeField` and zero
`LookbackPeriod`, so both defaults apply. -/
def cfgDefaults : Config :=
  { endpoint := "e", mode := "direct", proxyEndpoint := "",
    queries := [qc0], indexPattern := "logs-*", timeField := "",
    lookbackPeriod := 0 }

/-! ### Theorems -/

theorem loopCycles_replicate_tick (k : ℕ) :
    loopCycles (List.replicate k LoopEvent.tick) = k := by
  induction k with
  | zero => rfl
  | succ n ih => simp [List.replicate, loopCycles, ih]; omega

theorem loopCycles_cancel_absorbs (pre post : List LoopEvent) :
    loopCycles (pre ++ LoopEvent.cancel :: post) =
      loopCycles (pre ++ [LoopEvent.cancel]) := by
  induction pre with
  | nil => rfl
  | cons e rest ih => cases e <;> simp [loopCycles, ih]

/-- Claim C9: the collection loop waits the initial delay once, then
runs the first cycle immediately before any timer tick, then one cycle
per tick; with `initial_delay = 0` the first cycle fires immediately
even if the cancellation signal is already pending in the delay select;
after `k` ticks `k + 1` cycles have run; and after the cancellation
signal no further cycle is started (events after `cancel` contribute
nothing).  Cancellation during a positive initial delay runs no
cycle. -/
theorem claim_C9 :
    (∀ (dc : Bool) (events : List LoopEvent),
      collectionLoop 0 dc events = 1 + loopCycles events) ∧
    (∀ (d : ℤ) (k : ℕ),
      collectionLoop d false (List.replicate k LoopEvent.tick) = k + 1) ∧
    (∀ (d : ℤ) (dc : Bool) (pre post : List LoopEvent),
      collectionLoop d dc (pre ++ LoopEvent.cancel :: post) =
        collectionLoop d dc (pre ++ [LoopEvent.cancel])) ∧
    (∀ (d : ℤ) (events : List LoopEvent),
      0 < d → collectionLoop d true events = 0) := by
  refine ⟨?_, ?_, ?_, ?_⟩
  · intro dc events
    simp [collectionLoop]
  · intro d k
    simp [collectionLoop, loopCycles_replicate_tick]
    omega
  · intro d dc pre post
    simp [collectionLoop, loopCycles_cancel_absorbs]
  · intro d events hd
    simp [collectionLoop, hd]

/-- Witness for C9: with a positive initial delay and the cancellation
signal winning the delay select, no cycle runs. -/
theorem claim_C9_witness :
    collectionLoop 5 true [LoopEvent.tick, LoopEvent.tick] = 0 :=
  claim_C9.2.2.2 5 [LoopEvent.tick, LoopEvent.tick] (by norm_num)

/-- Claim C10: `Config.Validate` is atomic on error (the config value
is unchanged on every error return, since all checks precede the
default-setting writes) and default-setting on success (`TimeField`
becomes `@timestamp` when empty, `LookbackPeriod` becomes 5 minutes
when zero, so after success both are non-trivial). -/
theorem claim_C10 (cfg : Config) :
    ((validate cfg).1.isSome → (validate cfg).2 = cfg) ∧
    ((validate cfg).1 = none →
      (validate cfg).2.timeField =
        (if cfg.timeField = "" then "@timestamp" else cfg.timeField) ∧
      (validate cfg).2.lookbackPeriod =
        (if cfg.lookbackPeriod = 0 then 300000000000
         else cfg.lookbackPeriod) ∧
      (validate cfg).2.timeField ≠ "" ∧
      (validate cfg).2.lookbackPeriod ≠ 0) := by
  unfold validate
  split
  · simp
  · split
    · simp
    · split
      · simp
      · split
        · simp
        · split
          · simp
          · split
            · simp
            · split
              · simp
              · constructor
                · intro hsome
                  simp at hsome
                · intro _
                  refine ⟨rfl, rfl, ?_, ?_⟩
                  · dsimp only
                    split <;> simp_all
                  · dsimp only
                    split
                    · norm_num
                    · simp_all

/-- Witness for C10: a config missing its mode is returned unchanged,
and a valid config with empty `TimeField` and zero `LookbackPeriod`
gets both defaults. -/
theorem claim_C10_witness :
    (validate cfgNoMode).2 = cfgNoMode ∧
    ((validate cfgDefaults).2.timeField = "@timestamp" ∧
     (validate cfgDefaults).2.lookbackPeriod = 300000000000) := by
  refine ⟨(claim_C10 cfgNoMode).1 (by simp [validate, cfgNoMode]), ?_⟩
  have h := (claim_C10 cfgDefaults).2
    (by simp [validate, cfgDefaults, firstQueryError, qc0])
  exact ⟨by rw [h.1]; simp [cfgDefaults], by rw [h.2.1]; simp [cfgDefaults]⟩

/-- Claim C8 (as proved on the scrape loop): when one query among the
configured queries fails, nothing is recorded for it, the remaining
queries (before and after it, in configured order) still produce their
measurements, and the cycle's returned error is `nil`. -/
theorem claim_C8 (qs1 qs2 : List QueryConfig) (qbad : QueryConfig)
    (exec : QueryConfig → Option SearchResponse)
    (h : exec qbad = none) :
    (scrape (qs1 ++ qbad :: qs2) exec).1 =
      (scrape qs1 exec).1 ++ (scrape qs2 exec).1 ∧
    (scrape (qs1 ++ qbad :: qs2) exec).2 = none := by
  constructor
  · simp only [scrape]
    induction qs1 with
    | nil => simp [scrapeQueries, h]
    | cons qc rest ih => simp [scrapeQueries, ih]
  · rfl

/-- Witness for C8: with the oracle failing exactly on `qcBad`, the
cycle over `[qc0, qcBad]` yields exactly `qc0`'s batch and no error. -/
theorem claim_C8_witness :
    (scrape [qc0, qcBad] execOracle).1 =
      (scrape [qc0] execOracle).1 ++ (scrape [] execOracle).1 ∧
    (scrape [qc0, qcBad] execOracle).2 = none :=
  claim_C8 [qc0] [] qcBad execOracle rfl

/-- Claim C6: `addTimeRangeFilter` wraps any query `Q` as
`{bool: {must: [Q], filter: [{range: {timeField: {gte, lte}}}]}}` with
`gte = now - lookback` and `lte = now`, both rendered in RFC 3339; the
window's endpoints satisfy `gte < lte` and `lte - gte = lookback`, and
the original query value appears unmodified in `must` (the Go code
builds fresh maps around it). -/
theorem claim_C6 (timeField : String) (lookback now : ℤ) (query : Json)
    (h : 0 < lookback) :
    addTimeRangeFilter timeField lookback now query =
      Json.obj [("bool", Json.obj
        [("must", Json.arr [query]),
         ("filter", Json.arr [Json.obj [("range", Json.obj
           [(timeField, Json.obj
             [("gte", Json.str (rfc3339 (now - lookback))),
              ("lte", Json.str (rfc3339 now))])])]])])] ∧
    now - lookback < now ∧ now - (now - lookback) = lookback := by
  refine ⟨rfl, by omega, by omega⟩

/-- Witness for C6: a 5-minute window ending at the epoch second
1760140800 (2025-10-11T00:00:00Z). -/
theorem claim_C6_witness :
    addTimeRangeFilter "@timestamp" 300 1760140800 (Json.obj []) =
      Json.obj [("bool", Json.obj
        [("must", Json.arr [Json.obj []]),
         ("filter", Json.arr [Json.obj [("range", Json.obj
           [("@timestamp", Json.obj
             [("gte", Json.str (rfc3339 (1760140800 - 300))),
              ("lte", Json.str (rfc3339 1760140800))])])]])])] ∧
    (1760140800 : ℤ) - 300 < 1760140800 ∧
    (1760140800 : ℤ) - (1760140800 - 300) = 300 :=
  claim_C6 "@timestamp" 300 1760140800 (Json.obj []) (by norm_num)

/-- Claim C3 counterexample: the code checks `StatusCode != 200`, not
the 2xx range, so status 201 — inside the 2xx range — still produces a
status error.  The claim "returns an error exactly when the HTTP
response status is outside the 2xx range" is false as stated. -/
theorem claim_C3_counterexample :
    (200 ≤ 201 ∧ 201 ≤ 299) ∧
    checkStatusCode 201 "created" =
      Except.error "unexpected status code 201: created" := by
  exact ⟨⟨by norm_num, by norm_num⟩, rfl⟩

/-- Claim C3 (amended): `ExecuteQuery`'s status check errors exactly
when the status is not 200 (`http.StatusOK`); every non-200 response
yields an error whose message contains the numeric status code and the
raw response body as substrings, and a 200 status produces no status
error. -/
theorem claim_C3 (s : ℕ) (b : String) :
    (checkStatusCode s b = Except.ok () ↔ s = 200) ∧
    (s ≠ 200 →
      checkStatusCode s b = Except.error
        ("unexpected status code " ++ toString s ++ ": " ++ b) ∧
      List.IsInfix (toString s).data
        ("unexpected status code " ++ toString s ++ ": " ++ b).data ∧
      List.IsInfix b.data
        ("unexpected status code " ++ toString s ++ ": " ++ b).data) := by
  constructor
  · unfold checkStatusCode
    split
    · simp
      omega
    · simp
      omega
  · intro hs
    refine ⟨by simp [checkStatusCode, hs], ?_, ?_⟩
    · refine ⟨"unexpected status code ".data, (": " ++ b).data, ?_⟩
      simp [String.data_append]
    · refine ⟨("unexpected status code " ++ toString s ++ ": ").data,
        [], ?_⟩
      simp [String.data_append]

/-- Witness for C3: the amended statement at status 503. -/
theorem claim_C3_witness :
    checkStatusCode 503 "unavailable" = Except.error
      ("unexpected status code " ++ toString 503 ++ ": " ++
        "unavailable") :=
  ((claim_C3 503 "unavailable").2 (by norm_num)).1

/-- Claim C5: every successfully executed query records exactly five
summary measurements — `<prefix>.count`, `<prefix>.took_ms`,
`<prefix>.shards.total`, `<prefix>.shards.successful`,
`<prefix>.shards.failed` — whose values are exactly the response's
`hits.total.value`, `took` and shard counts; aggregation-derived
measurements follow as an additional suffix (empty when the response
has no aggregations). -/
theorem claim_C5 (qc : QueryConfig) (resp : SearchResponse) :
    ((executeAndRecordQuery qc resp).take 5).map
        (fun m => (m.name, m.value, m.unit)) =
      [(resolveMetricName qc ++ ".count", (resp.hitsTotalValue : ℚ),
          "hits"),
       (resolveMetricName qc ++ ".took_ms", (resp.took : ℚ), "ms"),
       (resolveMetricName qc ++ ".shards.total",
          (resp.shards.total : ℚ), "shards"),
       (resolveMetricName qc ++ ".shards.successful",
          (resp.shards.successful : ℚ), "shards"),
       (resolveMetricName qc ++ ".shards.failed",
          (resp.shards.failed : ℚ), "shards")] ∧
    (executeAndRecordQuery qc resp).drop 5 =
      (match resp.aggregations with
       | some aggs =>
           if aggs.length ≠ 0 then
             processAggregations qc (resolveMetricName qc) aggs
           else []
       | none => []) := by
  constructor
  · simp [executeAndRecordQuery, recordGaugeMetric]
  · simp [executeAndRecordQuery]

/-- Claim C1: the aggregation walk on the worked example — prefix `p`,
aggregation `levels` with one bucket `{key: "ERROR", doc_count: 10,
avg_latency: {value: 120.5}}` — emits exactly
`p.agg.levels.bucket.doc_count` = 10 with labels `bucket.key = ERROR`
and `aggregation = levels`, and `p.ERROR.agg.avg_latency` = 120.5; and
in general the walk recurses into every bucket field other than `key`,
`doc_count` and `key_as_string` as a nested aggregation whose new base
metric name is `<baseMetricName>.<key>`. -/
theorem claim_C1 :
    processAggregation qc0 "p" "levels" nodeLevels =
      [{ name := "p.agg.levels.bucket.doc_count",
         description := "Bucket document count for levels",
         unit := "documents", value := 10,
         labels := [("query.name", "q"), ("bucket.key", "ERROR"),
                    ("aggregation", "levels")] },
       { name := "p.ERROR.agg.avg_latency",
         description := "Aggregation result for avg_latency",
         unit := "", value := 120.5,
         labels := [("query.name", "q")] }] ∧
    ∀ (qc : QueryConfig) (baseMetricName key : String)
      (bucketFields : List (String × Json)),
      processBucketFields qc baseMetricName key bucketFields =
        (bucketFields.filter (fun kv =>
          decide (kv.1 ≠ "key" ∧ kv.1 ≠ "doc_count" ∧
            kv.1 ≠ "key_as_string"))).flatMap
          (fun kv =>
            processAggregation qc (baseMetricName ++ "." ++ key)
              kv.1 kv.2) := by
  constructor
  · simp [processAggregation, processBuckets, processBucketFields,
      nodeLevels, qc0, lookupField, resolveBucketKey, recordGaugeMetric,
      recordAttrs, bucketAttrs, putStr]
  · intro qc baseMetricName key bucketFields
    induction bucketFields with
    | nil => simp [processBucketFields]
    | cons kv rest ih =>
        by_cases hkv : kv.1 ≠ "key" ∧ kv.1 ≠ "doc_count" ∧
          kv.1 ≠ "key_as_string"
        · rw [processBucketFields, if_pos hkv]
          simp [List.filter_cons, hkv, ih]
        · rw [processBucketFields, if_neg hkv]
          simp [List.filter_cons, hkv, ih]

/-- Claim C2 counterexample: an aggregation node carrying both a
numeric `doc_count` and a `buckets` field still yields the node-level
`.agg.<name>.doc_count` measurement — the code emits it whenever
`doc_count` is numeric, with no "no buckets" guard — so the claim's
"exactly when ... carries no buckets field" is false as stated. -/
theorem claim_C2_counterexample :
    lookupField [("doc_count", Json.num 5),
      ("buckets", Json.arr
        [Json.obj [("key", Json.str "k"), ("doc_count", Json.num 2)]])]
      "buckets" = some (Json.arr
        [Json.obj [("key", Json.str "k"),
          ("doc_count", Json.num 2)]]) ∧
    (processAggregation qc0 "p" "a" nodeDocAndBuckets).map
        (fun m => (m.name, m.value)) =
      [("p.agg.a.doc_count", 5),
       ("p.agg.a.bucket.doc_count", 2)] := by
  constructor
  · rfl
  · simp [processAggregation, processBuckets, processBucketFields,
      nodeDocAndBuckets, qc0, lookupField, resolveBucketKey,
      recordGaugeMetric, recordAttrs, bucketAttrs, putStr]

/-- Claim C2 (amended): the walk emits the node-level
`<baseMetricName>.agg.<aggregationName>.doc_count` measurement with
unit `documents` whenever the node carries a numeric `doc_count`
field, regardless of whether a `buckets` field is present; a node with
both yields the node-level measurement in addition to the per-bucket
measurements. -/
theorem claim_C2 (qc : QueryConfig) (baseMetricName aggName : String)
    (fields : List (String × Json)) (d : ℚ)
    (h : lookupField fields "doc_count" = some (Json.num d)) :
    recordGaugeMetric (baseMetricName ++ ".agg." ++ aggName ++
        ".doc_count") ("Document count for " ++ aggName) "documents" d
        qc
      ∈ processAggregation qc baseMetricName aggName (Json.obj fields)
      := by
  rw [processAggregation]
  simp [h]

/-- Witness for C2: the node `{doc_count: 5, buckets: [...]}`. -/
theorem claim_C2_witness :
    recordGaugeMetric "p.agg.a.doc_count" "Document count for a"
        "documents" 5 qc0
      ∈ processAggregation qc0 "p" "a" nodeDocAndBuckets :=
  claim_C2 qc0 "p" "a"
    [("doc_count", Json.num 5),
     ("buckets", Json.arr
       [Json.obj [("key", Json.str "k"), ("doc_count", Json.num 2)]])]
    5 rfl

theorem digitChar_ne_dot (n : ℕ) : Nat.digitChar n ≠ '.' := by
  by_cases h : n < 16
  · interval_cases n <;> decide
  · delta Nat.digitChar
    repeat rw [if_neg (by omega)]
    decide

theorem toDigitsCore_ne_dot (f : ℕ) :
    ∀ (n : ℕ) (acc : List Char), (∀ c ∈ acc, c ≠ '.') →
      ∀ c ∈ Nat.toDigitsCore 10 f n acc, c ≠ '.' := by
  induction f with
  | zero =>
      intro n acc hacc c hc
      rw [Nat.toDigitsCore] at hc
      exact hacc c hc
  | succ f ih =>
      intro n acc hacc c hc
      rw [Nat.toDigitsCore] at hc
      by_cases hz : n / 10 = 0
      · simp only [hz, if_pos] at hc
        rcases List.mem_cons.mp hc with h1 | h2
        · subst h1; exact digitChar_ne_dot _
        · exact hacc c h2
      · simp only [hz, if_neg] at hc
        refine ih (n / 10) (Nat.digitChar (n % 10) :: acc) ?_ c hc
        intro c' hc'
        rcases List.mem_cons.mp hc' with h1 | h2
        · subst h1; exact digitChar_ne_dot _
        · exact hacc c' h2

theorem natRepr_ne_dot (n : ℕ) : ∀ c ∈ (Nat.repr n).data, c ≠ '.' := by
  intro c hc
  unfold Nat.repr at hc
  exact toDigitsCore_ne_dot (n + 1) n [] (by simp) c hc

theorem intToString_ne_dot (z : ℤ) :
    ∀ c ∈ (toString z).data, c ≠ '.' := by
  intro c hc
  cases z with
  | ofNat m =>
      exact natRepr_ne_dot m c hc
  | negSucc m =>
      have : (toString (Int.negSucc m)).data =
          '-' :: (Nat.repr (m + 1)).data := by
        show (Int.repr (Int.negSucc m)).data = _
        unfold Int.repr
        rw [String.data_append]
        rfl
      rw [this] at hc
      rcases List.mem_cons.mp hc with h1 | h2
      · subst h1; decide
      · exact natRepr_ne_dot (m + 1) c h2

/-- Claim C7: bucket-key resolution uses a string key verbatim,
renders a numeric key with no decimal places (the decimal rendering of
the `%.0f`-rounded integer, whose characters never include a decimal
point), and synthesizes `bucket_<i>` from the bucket's zero-based
sibling index when the key is missing. -/
theorem claim_C7 (bucketFields : List (String × Json)) (i : ℕ) :
    (∀ s, lookupField bucketFields "key" = some (Json.str s) →
      resolveBucketKey bucketFields i = s) ∧
    (∀ q, lookupField bucketFields "key" = some (Json.num q) →
      resolveBucketKey bucketFields i = toString (goRoundEven q) ∧
      ∀ c ∈ (resolveBucketKey bucketFields i).data, c ≠ '.') ∧
    (lookupField bucketFields "key" = none →
      resolveBucketKey bucketFields i = "bucket_" ++ toString i) := by
  refine ⟨?_, ?_, ?_⟩
  · intro s hs
    unfold resolveBucketKey
    rw [hs]
  · intro q hq
    unfold resolveBucketKey
    rw [hq]
    exact ⟨rfl, intToString_ne_dot _⟩
  · intro hnone
    unfold resolveBucketKey
    rw [hnone]

/-- Witness for C7: a bucket with a numeric key 120.5 (rendered `120`,
halves to even) at index 3, and a keyless bucket at index 3. -/
theorem claim_C7_witness :
    (resolveBucketKey [("key", Json.num 120.5)] 3 =
      toString (goRoundEven 120.5) ∧
     ∀ c ∈ (resolveBucketKey [("key", Json.num 120.5)] 3).data,
       c ≠ '.') ∧
    resolveBucketKey [] 3 = "bucket_" ++ toString 3 :=
  ⟨(claim_C7 [("key", Json.num 120.5)] 3).2.1 120.5 rfl,
   (claim_C7 [] 3).2.2 rfl⟩

/-! ### Label-map lemmas for C4 -/

theorem getStr_putStr_self (m : List (String × String)) (k v : String) :
    getStr (putStr m k v) k = some v := by
  induction m with
  | nil => simp [putStr, getStr]
  | cons kv rest ih =>
      rw [putStr]
      by_cases hk : kv.1 = k
      · rw [if_pos hk, getStr, if_pos rfl]
      · rw [if_neg hk, getStr, if_neg hk]
        exact ih

theorem getStr_putStr_ne (m : List (String × String)) (k v k' : String)
    (h : k ≠ k') : getStr (putStr m k v) k' = getStr m k' := by
  induction m with
  | nil => simp [putStr, getStr, h]
  | cons kv rest ih =>
      rw [putStr]
      by_cases hk : kv.1 = k
      · rw [if_pos hk, getStr, if_neg h, getStr, hk, if_neg h]
      · rw [if_neg hk, getStr, getStr]
        by_cases hk' : kv.1 = k'
        · rw [if_pos hk', if_pos hk']
        · rw [if_neg hk', if_neg hk']
          exact ih

theorem getStr_putStr_isSome (m : List (String × String))
    (k v k' : String) (h : (getStr m k').isSome) :
    (getStr (putStr m k v) k').isSome := by
  by_cases hk : k = k'
  · subst hk
    rw [getStr_putStr_self]
    rfl
  · rw [getStr_putStr_ne m k v k' hk]
    exact h

/-- The custom-label application loop (`for k, v := range
queryConfig.Labels`). -/
def foldPut (a : List (String × String))
    (labels : List (String × String)) : List (String × String) :=
  labels.foldl (fun acc kv => putStr acc kv.1 kv.2) a

theorem getStr_foldPut_not_mem (labels : List (String × String))
    (a : List (String × String)) (k : String)
    (h : k ∉ labels.map Prod.fst) :
    getStr (foldPut a labels) k = getStr a k := by
  induction labels generalizing a with
  | nil => rfl
  | cons kv rest ih =>
      simp only [List.map_cons, List.mem_cons] at h
      push_neg at h
      rw [foldPut, List.foldl_cons]
      rw [show List.foldl (fun acc kv => putStr acc kv.1 kv.2)
        (putStr a kv.1 kv.2) rest =
          foldPut (putStr a kv.1 kv.2) rest from rfl]
      rw [ih (putStr a kv.1 kv.2) h.2]
      exact getStr_putStr_ne a kv.1 kv.2 k fun he => h.1 he.symm

theorem getStr_foldPut_mem :
    ∀ (labels : List (String × String))
      (a : List (String × String)) (k v : String),
      (labels.map Prod.fst).Nodup → (k, v) ∈ labels →
      getStr (foldPut a labels) k = some v := by
  intro labels
  induction labels with
  | nil => intro a k v _ h; cases h
  | cons kv rest ih =>
      intro a k v hnd h
      simp only [List.map_cons, List.nodup_cons] at hnd
      rcases List.mem_cons.mp h with h1 | h2
      · subst h1
        rw [foldPut, List.foldl_cons]
        rw [show List.foldl (fun acc kv => putStr acc kv.1 kv.2)
          (putStr a k v) rest = foldPut (putStr a k v) rest from rfl]
        rw [getStr_foldPut_not_mem rest (putStr a k v) k hnd.1]
        exact getStr_putStr_self a k v
      · rw [foldPut, List.foldl_cons]
        exact ih (putStr a kv.1 kv.2) k v hnd.2 h2

theorem getStr_foldPut_isSome (labels : List (String × String))
    (a : List (String × String)) (k : String)
    (h : (getStr a k).isSome) :
    (getStr (foldPut a labels) k).isSome := by
  induction labels generalizing a with
  | nil => exact h
  | cons kv rest ih =>
      rw [foldPut, List.foldl_cons]
      exact ih (putStr a kv.1 kv.2) (getStr_putStr_isSome a kv.1 kv.2 k h)

theorem recordAttrs_eq_foldPut (qc : QueryConfig) :
    recordAttrs qc = foldPut
      (if qc.description ≠ "" then
        putStr (putStr [] "query.name" qc.name) "query.description"
          qc.description
       else putStr [] "query.name" qc.name) qc.labels := rfl

theorem bucketAttrs_eq_foldPut (qc : QueryConfig) (key aggName : String) :
    bucketAttrs qc key aggName = foldPut
      (putStr (putStr (putStr [] "query.name" qc.name) "bucket.key" key)
        "aggregation" aggName) qc.labels := rfl

theorem recordAttrs_name_isSome (qc : QueryConfig) :
    (getStr (recordAttrs qc) "query.name").isSome := by
  rw [recordAttrs_eq_foldPut]
  apply getStr_foldPut_isSome
  split
  · apply getStr_putStr_isSome
    rw [getStr_putStr_self]
    rfl
  · rw [getStr_putStr_self]
    rfl

theorem recordAttrs_description_isSome (qc : QueryConfig)
    (h : qc.description ≠ "") :
    (getStr (recordAttrs qc) "query.description").isSome := by
  rw [recordAttrs_eq_foldPut]
  apply getStr_foldPut_isSome
  rw [if_pos h, getStr_putStr_self]
  rfl

theorem recordAttrs_labels (qc : QueryConfig) (k v : String)
    (hnd : (qc.labels.map Prod.fst).Nodup) (h : (k, v) ∈ qc.labels) :
    getStr (recordAttrs qc) k = some v := by
  rw [recordAttrs_eq_foldPut]
  exact getStr_foldPut_mem qc.labels _ k v hnd h

theorem bucketAttrs_name_isSome (qc : QueryConfig) (key aggName : String) :
    (getStr (bucketAttrs qc key aggName) "query.name").isSome := by
  rw [bucketAttrs_eq_foldPut]
  apply getStr_foldPut_isSome
  apply getStr_putStr_isSome
  apply getStr_putStr_isSome
  rw [getStr_putStr_self]
  rfl

theorem bucketAttrs_key_isSome (qc : QueryConfig) (key aggName : String) :
    (getStr (bucketAttrs qc key aggName) "bucket.key").isSome := by
  rw [bucketAttrs_eq_foldPut]
  apply getStr_foldPut_isSome
  apply getStr_putStr_isSome
  rw [getStr_putStr_self]
  rfl

theorem bucketAttrs_agg_isSome (qc : QueryConfig) (key aggName : String) :
    (getStr (bucketAttrs qc key aggName) "aggregation").isSome := by
  rw [bucketAttrs_eq_foldPut]
  apply getStr_foldPut_isSome
  rw [getStr_putStr_self]
  rfl

theorem bucketAttrs_labels (qc : QueryConfig) (key aggName k v : String)
    (hnd : (qc.labels.map Prod.fst).Nodup) (h : (k, v) ∈ qc.labels) :
    getStr (bucketAttrs qc key aggName) k = some v := by
  rw [bucketAttrs_eq_foldPut]
  exact getStr_foldPut_mem qc.labels _ k v hnd h

/-- Every label set the walk attaches to a measurement is either the
`recordGaugeMetric` attribute set or a bucket attribute set. -/
def LabelsOk (qc : QueryConfig) (l : List (String × String)) : Prop :=
  l = recordAttrs qc ∨ ∃ key aggName, l = bucketAttrs qc key aggName

theorem labelsOk_processAggregation (qc : QueryConfig) :
    ∀ (baseMetricName aggName : String) (aggValue : Json),
      ∀ m ∈ processAggregation qc baseMetricName aggName aggValue,
        LabelsOk qc m.labels := by
  refine processAggregation.induct qc
    (fun b a v => ∀ m ∈ processAggregation qc b a v, LabelsOk qc m.labels)
    (fun b a l i => ∀ m ∈ processBuckets qc b a l i, LabelsOk qc m.labels)
    (fun b k fl => ∀ m ∈ processBucketFields qc b k fl,
      LabelsOk qc m.labels)
    ?_ ?_ ?_ ?_ ?_ ?_
  · intro b a fields hbuckets m hm
    rw [processAggregation] at hm
    rcases List.mem_append.mp hm with h12 | h3
    · rcases List.mem_append.mp h12 with h1 | h2
      · rcases hv : lookupField fields "value" with _ | j
        · rw [hv] at h1; cases h1
        · rw [hv] at h1
          cases j <;> simp at h1
          subst h1
          exact Or.inl rfl
      · rcases hd : lookupField fields "doc_count" with _ | j
        · rw [hd] at h2; cases h2
        · rw [hd] at h2
          cases j <;> simp at h2
          subst h2
          exact Or.inl rfl
    · rcases hb : lookupField fields "buckets" with _ | j
      · rw [hb] at h3; cases h3
      · rw [hb] at h3
        cases j <;> try cases h3
        case arr buckets =>
          exact hbuckets buckets hb m h3
  · intro b a v hnotobj m hm
    rcases v with s | x | bb | _ | l | fields
    · simp [processAggregation] at hm
    · simp [processAggregation] at hm
    · simp [processAggregation] at hm
    · simp [processAggregation] at hm
    · simp [processAggregation] at hm
    · exact absurd rfl (hnotobj fields)
  · intro b a i m hm
    rw [processBuckets] at hm
    cases hm
  · intro b a i bkt rest hbkt ih m hm
    rcases bkt with s | x | bb | _ | l | bucketFields
    · simp only [processBuckets] at hm
      exact ih m hm
    · simp only [processBuckets] at hm
      exact ih m hm
    · simp only [processBuckets] at hm
      exact ih m hm
    · simp only [processBuckets] at hm
      exact ih m hm
    · simp only [processBuckets] at hm
      exact ih m hm
    · rw [processBuckets] at hm
      rcases List.mem_append.mp hm with h1 | h2
      · rcases List.mem_append.mp h1 with hdc | hnested
        · rcases hd : lookupField bucketFields "doc_count" with _ | j
          · rw [hd] at hdc; cases hdc
          · rw [hd] at hdc
            cases j <;> simp at hdc
            subst hdc
            exact Or.inr ⟨resolveBucketKey bucketFields i, a, rfl⟩
        · exact hbkt m hnested
      · exact ih m h2
  · intro b k m hm
    rw [processBucketFields] at hm
    cases hm
  · intro b key k v rest hrec ih m hm
    rw [processBucketFields] at hm
    rcases List.mem_append.mp hm with h1 | h2
    · by_cases hk : k ≠ "key" ∧ k ≠ "doc_count" ∧ k ≠ "key_as_string"
      · rw [if_pos hk] at h1
        exact hrec m h1
      · rw [if_neg hk] at h1
        cases h1
    · exact ih m h2

theorem labelsOk_processAggregations (qc : QueryConfig)
    (baseMetricName : String) (aggs : List (String × Json)) :
    ∀ m ∈ processAggregations qc baseMetricName aggs,
      LabelsOk qc m.labels := by
  induction aggs with
  | nil => intro m hm; cases hm
  | cons kv rest ih =>
      intro m hm
      rw [processAggregations] at hm
      rcases List.mem_append.mp hm with h1 | h2
      · exact labelsOk_processAggregation qc baseMetricName kv.1 kv.2 m h1
      · exact ih m h2

theorem labelsOk_executeAndRecordQuery (qc : QueryConfig)
    (resp : SearchResponse) :
    ∀ m ∈ executeAndRecordQuery qc resp, LabelsOk qc m.labels := by
  intro m hm
  rw [executeAndRecordQuery] at hm
  rcases List.mem_append.mp hm with h1 | h2
  · simp only [List.mem_cons, List.mem_singleton] at h1
    rcases h1 with rfl | rfl | rfl | rfl | rfl | h
    · exact Or.inl rfl
    · exact Or.inl rfl
    · exact Or.inl rfl
    · exact Or.inl rfl
    · exact Or.inl rfl
    · cases h
  · rcases ha : resp.aggregations with _ | aggs
    · rw [ha] at h2; cases h2
    · rw [ha] at h2
      replace h2 : m ∈ (if aggs.length ≠ 0 then
          processAggregations qc (resolveMetricName qc) aggs
        else []) := h2
      by_cases hlen : aggs.length ≠ 0
      · rw [if_pos hlen] at h2
        exact labelsOk_processAggregations qc (resolveMetricName qc)
          aggs m h2
      · rw [if_neg hlen] at h2
        cases h2

/-- Claim C4 counterexample: with a non-empty query description, the
bucket-derived `doc_count` measurement does not carry
`query.description` (the inline bucket emission writes only
`query.name`, `bucket.key`, `aggregation` and the custom labels), so
"Every measurement ... always includes ... query.description" is false
as stated. -/
theorem claim_C4_counterexample :
    qcLab.description ≠ "" ∧
    (executeAndRecordQuery qcLab respBuckets).map
        (fun m => getStr m.labels "query.description") =
      [some "d", some "d", some "d", some "d", some "d", none] := by
  constructor
  · simp [qcLab]
  · simp [executeAndRecordQuery, qcLab, respBuckets, resolveMetricName,
      recordGaugeMetric, recordAttrs, putStr, getStr, foldPut,
      processAggregations, processAggregation, processBuckets,
      processBucketFields, lookupField, resolveBucketKey, bucketAttrs]

/-- Claim C4 (amended): every measurement emitted for a query carries
a label set that is a superset of the QueryConfig's labels and always
has the `query.name` key; measurements recorded through
`recordGaugeMetric` (summary and non-bucket aggregation measurements)
additionally carry `query.description` whenever the description is
non-empty, while bucket-derived `doc_count` measurements instead carry
`bucket.key` and `aggregation` (and not necessarily
`query.description`). -/
theorem claim_C4 (qc : QueryConfig) (resp : SearchResponse)
    (m : Measurement) (hnd : (qc.labels.map Prod.fst).Nodup)
    (hm : m ∈ executeAndRecordQuery qc resp) :
    (∀ k v, (k, v) ∈ qc.labels → getStr m.labels k = some v) ∧
    (getStr m.labels "query.name").isSome ∧
    ((m.labels = recordAttrs qc ∧
        (qc.description ≠ "" →
          (getStr m.labels "query.description").isSome)) ∨
     (∃ key aggName, m.labels = bucketAttrs qc key aggName ∧
        (getStr m.labels "bucket.key").isSome ∧
        (getStr m.labels "aggregation").isSome)) := by
  rcases labelsOk_executeAndRecordQuery qc resp m hm with hrec | hbkt
  · refine ⟨?_, ?_, Or.inl ⟨hrec, ?_⟩⟩
    · intro k v hkv
      rw [hrec]
      exact recordAttrs_labels qc k v hnd hkv
    · rw [hrec]
      exact recordAttrs_name_isSome qc
    · intro hdesc
      rw [hrec]
      exact recordAttrs_description_isSome qc hdesc
  · rcases hbkt with ⟨key, aggName, hb⟩
    refine ⟨?_, ?_, Or.inr ⟨key, aggName, hb, ?_, ?_⟩⟩
    · intro k v hkv
      rw [hb]
      exact bucketAttrs_labels qc key aggName k v hnd hkv
    · rw [hb]
      exact bucketAttrs_name_isSome qc key aggName
    · rw [hb]
      exact bucketAttrs_key_isSome qc key aggName
    · rw [hb]
      exact bucketAttrs_agg_isSome qc key aggName

/-- Witness for C4: the `count` summary measurement of `qcLab` on
`resp0` carries the custom label `team = x` and the `query.name`
key. -/
theorem claim_C4_witness :
    getStr (recordGaugeMetric "opensearch.query.q.count"
      "Number of documents matching the query" "hits" 42 qcLab).labels
      "team" = some "x" ∧
    (getStr (recordGaugeMetric "opensearch.query.q.count"
      "Number of documents matching the query" "hits" 42 qcLab).labels
      "query.name").isSome := by
  have h := claim_C4 qcLab resp0
    (recordGaugeMetric "opensearch.query.q.count"
      "Number of documents matching the query" "hits" 42 qcLab)
    (by simp [qcLab])
    (by simp [executeAndRecordQuery, qcLab, resp0, resolveMetricName])
  exact ⟨h.1 "team" "x" (by simp [qcLab]), h.2.1⟩

end OSQR
